import Mathlib

/-!
Verification development for the top-down action game in `geme.py`.

The per-frame entity simulation is embedded shallowly:

* pygame rectangles become `Rect` over `Int` (pygame stores rect
  coordinates as machine integers; all quantities here are small, far
  from any overflow boundary, so plain `Int` is faithful);
* `Rect.colliderect` follows the pygame overlap test, which is strict
  on all four sides;
* the player and the enemies keep their `rect` as a 64 by 64 tile and a
  35 by 35 `hit_rect` centered on it.  The source re-centers `hit_rect`
  after every change to `rect`, so the hit rectangle is a derived view
  `(x + 15, y + 15, 35, 35)` of the movement state here;
* the axis-separated movement of `Player.move` / `Enemy.move_towards_player`
  and both `collide_with_obstacles` methods act on the shared movement
  state `Mob` (position and velocity); the two classes are wrapped over
  that common core.  The obstacle argument is the concatenated list
  walls ++ pots ++ doors (and, for enemies, the other enemies) in the
  iteration order of the sprite groups, matching the order in which
  `pygame.sprite.spritecollide` reports hits.
-/

/-! ### Constants from the top of geme.py -/

def TILE_SIZE : Int := 64
def PLAYER_HEALTH : Int := 100
def PLAYER_SPEED : Int := 5
def PLAYER_DAMAGE : Int := 10
def PLAYER_ATTACK_COOLDOWN : Int := 400
def ENEMY_HEALTH : Int := 50
def ENEMY_DAMAGE : Int := 10
def ENEMY_SPEED : Int := 2
def ENEMY_AGGRO_RADIUS : Int := 250
def HEALTH_BOTTLE_HEAL_AMOUNT : Int := 25
def MERCHANT_ARROW_COST : Int := 3
def MERCHANT_ARROW_AMOUNT : Int := 5
def MERCHANT_POTION_COST : Int := 5
def MERCHANT_POTION_AMOUNT : Int := 1

/-! ### Rectangles -/

structure Rect where
  x : Int
  y : Int
  w : Int
  h : Int
deriving DecidableEq, Repr

def Rect.right (r : Rect) : Int := r.x + r.w

def Rect.bottom (r : Rect) : Int := r.y + r.h

def Rect.centerx (r : Rect) : Int := r.x + r.w / 2

def Rect.centery (r : Rect) : Int := r.y + r.h / 2

/-- pygame `Rect.colliderect`: rectangles overlap when they share area,
    with strict comparison on every side (touching edges do not collide). -/
def Rect.colliderect (a b : Rect) : Bool :=
  decide (a.x < b.x + b.w) && decide (b.x < a.x + a.w) &&
  decide (a.y < b.y + b.h) && decide (b.y < a.y + a.h)

/-- pygame `Rect.inflate(dw, dh)`: grow around the center. -/
def Rect.inflate (r : Rect) (dw dh : Int) : Rect :=
  { x := r.x - dw / 2, y := r.y - dh / 2, w := r.w + dw, h := r.h + dh }

/-! ### Axis-separated movement (`Player.move`, `Enemy.move_towards_player`,
     and the two `collide_with_obstacles` methods) -/

/-- Movement state shared by the player and the enemies: the top-left
    corner of the 64 by 64 `rect` and the per-axis velocity. -/
structure Mob where
  x : Int
  y : Int
  vx : Int
  vy : Int
deriving DecidableEq, Repr

def Mob.rect (m : Mob) : Rect := ⟨m.x, m.y, 64, 64⟩

/-- The 35 by 35 `hit_rect`, kept centered on `rect` by the source. -/
def Mob.hit_rect (m : Mob) : Rect := ⟨m.x + 15, m.y + 15, 35, 35⟩

/-- `pygame.sprite.spritecollide(self, group, False)`: the members of
    `obs` whose rectangle overlaps the moving entity, in group order. -/
def hitsAgainst (m : Mob) (obs : List Rect) : List Rect :=
  obs.filter (fun o => m.rect.colliderect o)

/-- One snap against one obstacle on the x axis, exactly the body of the
    `if hits:` block: push flush in the direction of travel, zero `vx`. -/
def snapX (m : Mob) (o : Rect) : Mob :=
  let m1 := if 0 < m.vx then { m with x := o.x - 64 } else m
  let m2 := if m1.vx < 0 then { m1 with x := o.x + o.w } else m1
  { m2 with vx := 0 }

/-- One snap against one obstacle on the y axis. -/
def snapY (m : Mob) (o : Rect) : Mob :=
  let m1 := if 0 < m.vy then { m with y := o.y - 64 } else m
  let m2 := if m1.vy < 0 then { m1 with y := o.y + o.h } else m1
  { m2 with vy := 0 }

/-- `Player.collide_with_obstacles('x')`: the player resolves against
    `hits[0]` only. -/
def playerCollideX (m : Mob) (obs : List Rect) : Mob :=
  match hitsAgainst m obs with
  | [] => m
  | o :: _ => snapX m o

/-- `Player.collide_with_obstacles('y')`. -/
def playerCollideY (m : Mob) (obs : List Rect) : Mob :=
  match hitsAgainst m obs with
  | [] => m
  | o :: _ => snapY m o

/-- `Player.move(self.vx, self.vy)`: apply each axis delta, then resolve
    that axis, skipping an axis whose delta is zero. -/
def playerMoveX (m : Mob) (obs : List Rect) : Mob :=
  if m.vx ≠ 0 then playerCollideX { m with x := m.x + m.vx } obs else m

def playerMove (m : Mob) (obs : List Rect) : Mob :=
  let m1 := playerMoveX m obs
  if m.vy ≠ 0 then playerCollideY { m1 with y := m1.y + m.vy } obs else m1

/-- `Enemy.collide_with_obstacles('x')`: the enemy version loops over all
    hits, but zeroes `vx` after the first one, so later iterations are
    inert; the loop is the fold of `snapX`. -/
def enemyCollideX (m : Mob) (obs : List Rect) : Mob :=
  (hitsAgainst m obs).foldl snapX m

def enemyCollideY (m : Mob) (obs : List Rect) : Mob :=
  (hitsAgainst m obs).foldl snapY m

/-- The movement half of `Enemy.move_towards_player` given the already
    computed velocity: both axis passes run unconditionally. -/
def enemyMoveX (m : Mob) (obs : List Rect) : Mob :=
  enemyCollideX { m with x := m.x + m.vx } obs

def enemyMove (m : Mob) (obs : List Rect) : Mob :=
  let m1 := enemyMoveX m obs
  enemyCollideY { m1 with y := m1.y + m1.vy } obs

/-! ### Entities -/

inductive Dir | up | down | left | right
deriving DecidableEq, Repr

inductive Equip | sword | bow
deriving DecidableEq, Repr

/-- An arrow in flight (`Projectile.__init__`): the 10 by 10 rect is
    created centered on the given position and the velocity is the fixed
    speed 10 along the facing axis. -/
structure Proj where
  x : Int
  y : Int
  vx : Int
  vy : Int
deriving DecidableEq, Repr

def Projectile_init (pos : Int × Int) (direction : Dir) : Proj :=
  let v : Int × Int :=
    match direction with
    | .up => (0, -10)
    | .down => (0, 10)
    | .left => (-10, 0)
    | .right => (10, 0)
  { x := pos.1 - 5, y := pos.2 - 5, vx := v.1, vy := v.2 }

/-- A melee enemy: movement state plus health. -/
structure Enemy where
  x : Int
  y : Int
  vx : Int
  vy : Int
  health : Int
deriving DecidableEq, Repr

def Enemy.rect (e : Enemy) : Rect := ⟨e.x, e.y, 64, 64⟩

def Enemy.hit_rect (e : Enemy) : Rect := ⟨e.x + 15, e.y + 15, 35, 35⟩

def Enemy.toMob (e : Enemy) : Mob := ⟨e.x, e.y, e.vx, e.vy⟩

def Enemy.ofMob (e : Enemy) (m : Mob) : Enemy :=
  { e with x := m.x, y := m.y, vx := m.vx, vy := m.vy }

/-- `Enemy.take_damage`: subtract, and on `health <= 0` call `kill()`
    (removal from every sprite group); the second component records the
    removal.  Note the source does not clamp the stored health. -/
def Enemy.take_damage (health amount : Int) : Int × Bool :=
  let h := health - amount
  (h, decide (h ≤ 0))

/-- The player record: position, velocity, facing, stats, inventory and
    interaction state, as set up in `Player.__init__`. -/
structure Player where
  x : Int
  y : Int
  vx : Int
  vy : Int
  direction : Dir
  health : Int
  coins : Int
  arrows : Int
  health_bottles : Int
  keys : Int
  damage : Int
  equipped_item : Equip
  attacking : Bool
  last_attack_time : Int
  dialogue_active : Bool
deriving DecidableEq, Repr

def Player.rect (p : Player) : Rect := ⟨p.x, p.y, 64, 64⟩

def Player.hit_rect (p : Player) : Rect := ⟨p.x + 15, p.y + 15, 35, 35⟩

def Player.toMob (p : Player) : Mob := ⟨p.x, p.y, p.vx, p.vy⟩

/-- `Player.move` on the full player record. -/
def Player.move (p : Player) (obs : List Rect) : Player :=
  let m := playerMove p.toMob obs
  { p with x := m.x, y := m.y, vx := m.vx, vy := m.vy }

/-- `Player.take_damage`: subtract and clamp at 0; on death the source
    also sets `game.playing = False`, recorded by the second component. -/
def Player.take_damage (p : Player) (amount : Int) : Player × Bool :=
  let h := p.health - amount
  if h ≤ 0 then ({ p with health := 0 }, true) else ({ p with health := h }, false)

/-- `Player.get_attack_rect`: a 64 by 64 box anchored flush against the
    facing side of the player rect (midbottom to midtop and so on; both
    rectangles are 64 wide, so the shared-axis coordinates coincide). -/
def Player.get_attack_rect (p : Player) : Rect :=
  match p.direction with
  | .up => ⟨p.x, p.y - 64, 64, 64⟩
  | .down => ⟨p.x, p.y + 64, 64, 64⟩
  | .left => ⟨p.x - 64, p.y, 64, 64⟩
  | .right => ⟨p.x + 64, p.y, 64, 64⟩

/-- The sword sweep over the enemies group: every enemy whose `hit_rect`
    intersects the attack rect gets `take_damage(player.damage)`, and an
    enemy whose resulting health is `<= 0` is removed (`kill`).  The
    group is iterated over a snapshot, so all hits are computed against
    the pre-attack state. -/
def swordDamagePass (atk : Rect) (dmg : Int) (es : List Enemy) : List Enemy :=
  es.filterMap (fun e =>
    if atk.colliderect e.hit_rect then
      let h := e.health - dmg
      if h ≤ 0 then none else some { e with health := h }
    else some e)

/-- The sword sweep over the pots group: every pot whose rect intersects
    the attack rect is destroyed.  Each destroyed pot also runs
    `Pot.destroy` (loot drop and message), modelled by `Pot_destroy`. -/
def swordPotPass (atk : Rect) (pots : List Rect) : List Rect :=
  pots.filter (fun q => !(atk.colliderect q))

/-- The mutable world collections touched by an attack, in sprite-group
    iteration order. -/
structure World where
  enemies : List Enemy
  pots : List Rect
  projectiles : List Proj
  messages : List String
deriving DecidableEq, Repr

/-- `Player.attack`: gate on the 400 ms cooldown; on use, stamp the
    cooldown and set the attacking flag, then branch on the equipped
    item.  The sword branch damages and destroys; the bow branch spends
    one arrow and spawns a projectile at the player rect center, or
    posts a notification when out of arrows.  (The loot items and the
    messages emitted by `Pot.destroy` for pots swept by the sword are
    modelled separately in `Pot_destroy`.) -/
def Player.attack (now : Int) (p : Player) (w : World) : Player × World :=
  if now - p.last_attack_time > PLAYER_ATTACK_COOLDOWN then
    let p1 := { p with last_attack_time := now, attacking := true }
    match p1.equipped_item with
    | .sword =>
      let atk := p1.get_attack_rect
      (p1, { w with
               messages := w.messages ++ ["Swish!"],
               enemies := swordDamagePass atk p1.damage w.enemies,
               pots := swordPotPass atk w.pots })
    | .bow =>
      if p1.arrows > 0 then
        ({ p1 with arrows := p1.arrows - 1 },
         { w with
             projectiles := w.projectiles ++
               [Projectile_init (p1.rect.centerx, p1.rect.centery) p1.direction],
             messages := w.messages ++ ["Thwip!"] })
      else
        (p1, { w with messages := w.messages ++ ["Out of arrows!"] })
  else (p, w)

/-! ### Merchant trading (`UI.process_merchant_selection`) -/

/-- The fixed merchant menu entries.  The source dispatches on the menu
    strings "Arrows (3 Coins)", "Potion (5 Coins)", "Exit" by substring
    test; over the fixed menu that is exactly this enumeration. -/
inductive MerchantOption | arrowsOffer | potionOffer | exitOffer
deriving DecidableEq, Repr

def offerCost : MerchantOption → Int
  | .arrowsOffer => MERCHANT_ARROW_COST
  | .potionOffer => MERCHANT_POTION_COST
  | .exitOffer => 0

def offerArrowGain : MerchantOption → Int
  | .arrowsOffer => MERCHANT_ARROW_AMOUNT
  | _ => 0

def offerBottleGain : MerchantOption → Int
  | .potionOffer => MERCHANT_POTION_AMOUNT
  | _ => 0

def offerFailMsg : MerchantOption → String
  | .arrowsOffer => "Not enough coins for arrows!"
  | .potionOffer => "Not enough coins for a potion!"
  | .exitOffer => ""

def offerSuccessMsg : MerchantOption → String
  | .arrowsOffer => "Bought 5 arrows."
  | .potionOffer => "Bought 1 health potion."
  | .exitOffer => "See you again soon!"

/-- `UI.process_merchant_selection`: check the price, then debit and
    credit, or post a failure notification; the exit entry only closes
    the dialogue. -/
def process_merchant_selection (sel : MerchantOption) (p : Player)
    (msgs : List String) : Player × List String :=
  match sel with
  | .arrowsOffer =>
    if p.coins ≥ MERCHANT_ARROW_COST then
      ({ p with coins := p.coins - MERCHANT_ARROW_COST,
                arrows := p.arrows + MERCHANT_ARROW_AMOUNT },
       msgs ++ ["Bought 5 arrows."])
    else (p, msgs ++ ["Not enough coins for arrows!"])
  | .potionOffer =>
    if p.coins ≥ MERCHANT_POTION_COST then
      ({ p with coins := p.coins - MERCHANT_POTION_COST,
                health_bottles := p.health_bottles + MERCHANT_POTION_AMOUNT },
       msgs ++ ["Bought 1 health potion."])
    else (p, msgs ++ ["Not enough coins for a potion!"])
  | .exitOffer =>
    ({ p with dialogue_active := false }, msgs ++ ["See you again soon!"])

/-! ### Doors (`Door.interact` and the targeting in `Player.update`) -/

/-- `Door.interact`: gated by a 500 ms cooldown that reuses (and
    overwrites) the attack timestamp; with a key, spend it and remove the
    door; without, post a failure notification.  The result is the
    updated player, whether the door removed itself (`kill`), and the
    message list. -/
def Door_interact (now : Int) (p : Player) (msgs : List String) :
    Player × Bool × List String :=
  if now - p.last_attack_time > 500 then
    let p1 := { p with last_attack_time := now }
    if p1.keys > 0 then
      ({ p1 with keys := p1.keys - 1 }, true, msgs ++ ["The door creaks open!"])
    else
      (p1, false, msgs ++ ["This door is locked. You need a key."])
  else (p, false, msgs)

/-- The door half of the target scan in `Player.update`: the first live
    door whose rect inflated by one tile overlaps the player rect
    becomes the interaction target. -/
def findDoorTarget (prect : Rect) (doors : List Rect) : Option Nat :=
  doors.findIdx? (fun d => prect.colliderect (d.inflate 64 64))

/-- One press of the interact key next to the doors collection: find the
    target as `Player.update` does, call `Door.interact` on it, and drop
    the door from the live list when it killed itself.  With no live
    door in range there is no target and nothing happens. -/
def interact_with_doors (now : Int) (p : Player) (doors : List Rect)
    (msgs : List String) : Player × List Rect × List String :=
  match findDoorTarget p.rect doors with
  | none => (p, doors, msgs)
  | some i =>
    let r := Door_interact now p msgs
    (r.1, if r.2.1 then doors.eraseIdx i else doors, r.2.2)

/-! ### Pots and loot (`Pot.destroy`) -/

inductive Loot | arrows | coin | health_bottle
deriving DecidableEq, Repr

def loot_options : List Loot := [.arrows, .coin, .health_bottle]

def loot_weights : List ℚ := [5/10, 3/10, 2/10]

/-- The draw of `random.choices(loot_options, weights, k=1)`: with the
    uniform sample `r` in `[0,1)` scaled by the total weight 1, the
    chosen index is the first whose cumulative weight exceeds `r`. -/
def chooseLoot (r : ℚ) : Loot :=
  if r < 5/10 then .arrows else if r < 8/10 then .coin else .health_bottle

def lootMessage : Loot → String
  | .arrows => "Pot dropped arrows!"
  | .coin => "Pot dropped coin!"
  | .health_bottle => "Pot dropped health bottle!"

/-- `Pot.destroy` on the pot at index `i` of the live pots list: draw one
    loot kind, spawn one `Item` at the pot center, post the message, and
    remove the pot (`kill`).  `kill` removes exactly the destroyed
    sprite, rendered here as `eraseIdx` at its index. -/
def Pot_destroy (r : ℚ) (pots : List Rect) (i : Nat)
    (items : List (Loot × Int × Int)) (msgs : List String) :
    List Rect × List (Loot × Int × Int) × List String :=
  match pots[i]? with
  | none => (pots, items, msgs)
  | some pot =>
    (pots.eraseIdx i,
     items ++ [(chooseLoot r, pot.centerx, pot.centery)],
     msgs ++ [lootMessage (chooseLoot r)])

/-! ### Enemy per-frame update (`Enemy.update`, `Enemy.move_towards_player`) -/

/-- `Enemy.move_towards_player`: the source first computes the velocity
    as the unit vector toward the player scaled by `ENEMY_SPEED` in
    floating point; that velocity is taken as the argument `vel` so that
    the embedding stays in `Int`, and the axis-separated resolution that
    follows it is `enemyMove`. -/
def Enemy.move_towards_player (e : Enemy) (vel : Int × Int)
    (obs : List Rect) : Enemy :=
  e.ofMob (enemyMove { e.toMob with vx := vel.1, vy := vel.2 } obs)

/-- The squared distance between the rect centers of enemy and player;
    the source compares `math.hypot(dx, dy) < ENEMY_AGGRO_RADIUS`, which
    for exact values is the comparison of squares. -/
def Enemy.playerDistSq (e : Enemy) (p : Player) : Int :=
  (p.rect.centerx - e.rect.centerx) ^ 2 + (p.rect.centery - e.rect.centery) ^ 2

/-- `Enemy.update`: chase only when strictly inside the aggro radius and
    no dialogue is active; afterwards report whether the enemy hit
    rectangle overlaps the player hit rectangle (in which case the
    source applies `ENEMY_DAMAGE` contact damage this frame). -/
def Enemy.update (e : Enemy) (p : Player) (vel : Int × Int)
    (obs : List Rect) : Enemy × Bool :=
  let e1 :=
    if e.playerDistSq p < ENEMY_AGGRO_RADIUS ^ 2 ∧ p.dialogue_active = false then
      e.move_towards_player vel obs
    else e
  (e1, e1.hit_rect.colliderect p.hit_rect)

/-! ### The game-over transition (`Player.take_damage` plus the death
     check at the end of `Game.update`) -/

structure GameS where
  player : Player
  game_over : Bool
  playing : Bool
deriving DecidableEq, Repr

/-- `Player.take_damage` seen from the game state: the death branch also
    clears `game.playing`. -/
def GameS.take_damage (g : GameS) (amount : Int) : GameS :=
  let r := g.player.take_damage amount
  { g with player := r.1, playing := if r.2 then false else g.playing }

/-- The death check at the end of `Game.update`: on `health <= 0`, if the
    game-over flag is not yet set, set it (and stop play).  The second
    component records whether the transition fired this frame. -/
def GameS.death_check (g : GameS) : GameS × Bool :=
  if g.player.health ≤ 0 ∧ g.game_over = false then
    ({ g with game_over := true, playing := false }, true)
  else (g, false)

/-- One frame in which the player receives `amount` contact damage,
    followed by the death check of the same `Game.update` pass. -/
def damageFrame (g : GameS) (amount : Int) : GameS × Bool :=
  (g.take_damage amount).death_check

/-- A whole sequence of damage frames; the second component counts how
    many times the game-over transition fired. -/
def runFrames : GameS → List Int → GameS × Nat
  | g, [] => (g, 0)
  | g, a :: rest =>
    let r := damageFrame g a
    let s := runFrames r.1 rest
    (s.1, (if r.2 then 1 else 0) + s.2)

/-! ### Fixtures and spec-side predicates used by the theorems -/

/-- A default player as built by `Player.__init__` at the origin:
    health 100, 0 coins, 5 arrows, 1 health bottle, 0 keys, facing down,
    sword equipped, no cooldown stamp, no dialogue. -/
def p0 : Player :=
  { x := 0, y := 0, vx := 0, vy := 0, direction := .down,
    health := 100, coins := 0, arrows := 5, health_bottles := 1, keys := 0,
    damage := 10, equipped_item := .sword, attacking := false,
    last_attack_time := 0, dialogue_active := false }

/-- An empty world with no live entities and no notifications. -/
def w0 : World := { enemies := [], pots := [], projectiles := [], messages := [] }

/-- The state invariant carried through damage frames: health within
    `[0, PLAYER_HEALTH]` and the game-over flag set exactly when health
    has hit 0. -/
def gsInv (g : GameS) : Prop :=
  0 ≤ g.player.health ∧ g.player.health ≤ PLAYER_HEALTH ∧
    (g.game_over = true ↔ g.player.health = 0)

/-- The scenario E start state: health 5, alive, not yet game over. -/
def g0e : GameS :=
  { player := { p0 with health := 5 }, game_over := false, playing := true }

/-- The melee hitbox contract in the words of the spec: a fixed 64 by 64
    box anchored flush against whichever side of the player rectangle
    matches the facing direction, centered along the shared axis.  Used
    to check `Player.get_attack_rect` against the spec. -/
def attack_rect_flush (p : Player) (a : Rect) : Prop :=
  a.w = 64 ∧ a.h = 64 ∧
  (p.direction = .up → a.bottom = p.rect.y ∧ a.centerx = p.rect.centerx) ∧
  (p.direction = .down → a.y = p.rect.bottom ∧ a.centerx = p.rect.centerx) ∧
  (p.direction = .left → a.right = p.rect.x ∧ a.centery = p.rect.centery) ∧
  (p.direction = .right → a.x = p.rect.right ∧ a.centery = p.rect.centery)

/-- The world for the C7 witness: one hostile with 50 health and one pot,
    both one tile below the player at the origin. -/
def wC7 : World :=
  { enemies := [{ x := 0, y := 64, vx := 0, vy := 0, health := 50 }],
    pots := [⟨0, 64, 64, 64⟩], projectiles := [], messages := [] }

/-! ### Claim theorems -/

theorem colliderect_iff (a b : Rect) :
    a.colliderect b = true ↔
      a.x < b.x + b.w ∧ b.x < a.x + a.w ∧ a.y < b.y + b.h ∧ b.y < a.y + a.h := by
  simp [Rect.colliderect, and_assoc]

theorem colliderect_eq_false_iff (a b : Rect) :
    a.colliderect b = false ↔
      ¬ (a.x < b.x + b.w ∧ b.x < a.x + a.w ∧ a.y < b.y + b.h ∧ b.y < a.y + a.h) := by
  rw [← colliderect_iff]
  cases a.colliderect b <;> simp



/-- C4: a confirmed purchase offer either debits exactly its cost and
    credits exactly its effect (and posts the success message), or, when
    the player cannot afford it, changes nothing about the player and
    posts a failure notification; the coin count never becomes
    negative. -/
theorem c4_trade_atomicity (sel : MerchantOption) (p : Player)
    (msgs : List String) (hsel : sel ≠ MerchantOption.exitOffer)
    (hc : 0 ≤ p.coins) :
    0 ≤ (process_merchant_selection sel p msgs).1.coins ∧
    ((offerCost sel ≤ p.coins ∧
        (process_merchant_selection sel p msgs).1 =
          { p with coins := p.coins - offerCost sel,
                   arrows := p.arrows + offerArrowGain sel,
                   health_bottles := p.health_bottles + offerBottleGain sel } ∧
        (process_merchant_selection sel p msgs).2 = msgs ++ [offerSuccessMsg sel])
     ∨ (p.coins < offerCost sel ∧
        (process_merchant_selection sel p msgs).1 = p ∧
        (process_merchant_selection sel p msgs).2 = msgs ++ [offerFailMsg sel])) := by
  cases sel with
  | arrowsOffer =>
    simp only [process_merchant_selection, offerCost, offerArrowGain,
      offerBottleGain, offerSuccessMsg, offerFailMsg, MERCHANT_ARROW_COST,
      MERCHANT_ARROW_AMOUNT]
    split
    · rename_i h
      refine ⟨by dsimp only; omega, Or.inl ⟨h, ?_, rfl⟩⟩
      simp
    · rename_i h
      exact ⟨by dsimp only; omega, Or.inr ⟨by omega, rfl, rfl⟩⟩
  | potionOffer =>
    simp only [process_merchant_selection, offerCost, offerArrowGain,
      offerBottleGain, offerSuccessMsg, offerFailMsg, MERCHANT_POTION_COST,
      MERCHANT_POTION_AMOUNT]
    split
    · rename_i h
      refine ⟨by dsimp only; omega, Or.inl ⟨h, ?_, rfl⟩⟩
      simp
    · rename_i h
      exact ⟨by dsimp only; omega, Or.inr ⟨by omega, rfl, rfl⟩⟩
  | exitOffer => exact absurd rfl hsel

/-- Witness for C4: the spec scenario with 2 coins and the 3-coin arrow
    offer is rejected, leaves the player untouched and emits a
    notification. -/
theorem c4_trade_atomicity_witness :
    0 ≤ (process_merchant_selection .arrowsOffer { p0 with coins := 2 } []).1.coins ∧
    ((offerCost .arrowsOffer ≤ (2 : Int) ∧
        (process_merchant_selection .arrowsOffer { p0 with coins := 2 } []).1 =
          { { p0 with coins := 2 } with
              coins := 2 - offerCost .arrowsOffer,
              arrows := p0.arrows + offerArrowGain .arrowsOffer,
              health_bottles := p0.health_bottles + offerBottleGain .arrowsOffer } ∧
        (process_merchant_selection .arrowsOffer { p0 with coins := 2 } []).2 =
          [offerSuccessMsg .arrowsOffer])
     ∨ ((2 : Int) < offerCost .arrowsOffer ∧
        (process_merchant_selection .arrowsOffer { p0 with coins := 2 } []).1 =
          { p0 with coins := 2 } ∧
        (process_merchant_selection .arrowsOffer { p0 with coins := 2 } []).2 =
          [offerFailMsg .arrowsOffer])) := by
  have h := c4_trade_atomicity .arrowsOffer { p0 with coins := 2 } []
    (by decide) (by decide)
  simpa using h

/-- C5 counterexample: the claim says a key-less Door interaction leaves
    all state unchanged, but `Door.interact` stamps the shared attack
    timestamp even on failure.  Player at the origin, live door one tile
    to the right, cooldown long elapsed, no keys: the player record
    changes. -/
theorem c5_counterexample :
    ¬ (∀ (now : Int) (p : Player) (doors : List Rect) (msgs : List String)
        (i : Nat), findDoorTarget p.rect doors = some i → p.keys ≤ 0 →
        (interact_with_doors now p doors msgs).1 = p) := by
  intro h
  have h1 := h 1000 p0 [⟨64, 0, 64, 64⟩] [] 0 (by decide) (by decide)
  exact absurd h1 (by decide)

/-- C5 (amended): a Door interaction with a live target and the 500 ms
    cooldown elapsed consumes exactly one key and removes the door when
    a key is held, and otherwise leaves keys and doors unchanged while
    posting a failure notification — but in both cases it overwrites the
    shared attack timestamp.  When no live door is in range (for
    instance after the door was removed) the press is a no-op. -/
theorem c5_door_interaction (now : Int) (p : Player) (doors : List Rect)
    (msgs : List String) :
    (∀ i, findDoorTarget p.rect doors = some i →
      now - p.last_attack_time > 500 →
      ((0 < p.keys →
          interact_with_doors now p doors msgs =
            ({ p with last_attack_time := now, keys := p.keys - 1 },
             doors.eraseIdx i, msgs ++ ["The door creaks open!"])) ∧
       (p.keys ≤ 0 →
          interact_with_doors now p doors msgs =
            ({ p with last_attack_time := now }, doors,
             msgs ++ ["This door is locked. You need a key."])))) ∧
    (findDoorTarget p.rect doors = none →
      interact_with_doors now p doors msgs = (p, doors, msgs)) := by
  constructor
  · intro i hfind hcd
    constructor
    · intro hk
      simp [interact_with_doors, hfind, Door_interact, hcd, hk]
    · intro hk
      have hk2 : ¬ (0 < p.keys) := by omega
      simp [interact_with_doors, hfind, Door_interact, hcd, hk2]
  · intro hfind
    simp [interact_with_doors, hfind]

/-- Witness for C5, the spec scenario D: one key, one door in range; the
    interaction spends the key and removes the door, and a second press
    at the same spot finds no target and changes nothing. -/
theorem c5_door_interaction_witness :
    interact_with_doors 1000 { p0 with keys := 1 } [⟨64, 0, 64, 64⟩] [] =
      ({ p0 with keys := 0, last_attack_time := 1000 }, [],
       ["The door creaks open!"]) ∧
    interact_with_doors 2000 { p0 with keys := 0, last_attack_time := 1000 }
      [] ["The door creaks open!"] =
      ({ p0 with keys := 0, last_attack_time := 1000 }, [],
       ["The door creaks open!"]) := by
  have h1 := ((c5_door_interaction 1000 { p0 with keys := 1 }
    [⟨64, 0, 64, 64⟩] []).1 0 (by decide) (by decide)).1 (by decide)
  have h2 := (c5_door_interaction 2000
    { p0 with keys := 0, last_attack_time := 1000 } []
    ["The door creaks open!"]).2 (by decide)
  constructor
  · simpa using h1
  · exact h2

/-- C10: once its own 500 ms gate passes, `Door.interact` overwrites the
    attack-cooldown timestamp with `now` whether or not a key is held,
    and because `Player.attack` is gated on the same timestamp, any
    attack input within the following 400 ms window is a no-op: a door
    interaction delays the next attack. -/
theorem c10_door_overwrites_attack_cooldown (now : Int) (p : Player)
    (msgs : List String) (hcd : now - p.last_attack_time > 500) :
    (Door_interact now p msgs).1.last_attack_time = now ∧
    (∀ (t : Int) (w : World), t - now ≤ PLAYER_ATTACK_COOLDOWN →
      Player.attack t (Door_interact now p msgs).1 w =
        ((Door_interact now p msgs).1, w)) := by
  have hlast : (Door_interact now p msgs).1.last_attack_time = now := by
    by_cases hk : p.keys > 0 <;> simp [Door_interact, hcd, hk]
  refine ⟨hlast, ?_⟩
  intro t w ht
  have hgate :
      ¬ (t - (Door_interact now p msgs).1.last_attack_time >
          PLAYER_ATTACK_COOLDOWN) := by
    rw [hlast]
    omega
  simp [Player.attack, hgate]

/-- Witness for C10: a key-less door press at t = 1000 stamps the attack
    timer, and the attack input at t = 1400 (400 ms later, cooldown not
    yet elapsed) does nothing. -/
theorem c10_door_overwrites_attack_cooldown_witness :
    (Door_interact 1000 p0 []).1.last_attack_time = 1000 ∧
    Player.attack 1400 (Door_interact 1000 p0 []).1 w0 =
      ((Door_interact 1000 p0 []).1, w0) := by
  have h := c10_door_overwrites_attack_cooldown 1000 p0 [] (by decide)
  exact ⟨h.1, h.2 1400 w0 (by decide)⟩

/-- C6 counterexample: the claim says an out-of-ammo ranged attack input
    leaves the state unchanged apart from a notification, but
    `Player.attack` stamps `last_attack_time` and sets `attacking`
    before checking the quiver.  Bow equipped, 0 arrows, cooldown
    elapsed: the player record changes. -/
theorem c6_counterexample :
    ¬ (∀ (now : Int) (p : Player) (w : World),
        now - p.last_attack_time > PLAYER_ATTACK_COOLDOWN →
        p.equipped_item = .bow → p.arrows = 0 →
        (Player.attack now p w).1 = p) := by
  intro h
  have h1 := h 1000 { p0 with equipped_item := .bow, arrows := 0 } w0
    (by decide) (by decide) (by decide)
  exact absurd h1 (by decide)

/-- C6 (amended): a ranged attack input with the cooldown elapsed and
    ammunition available spends exactly one arrow and appends exactly
    one projectile, spawned centered on the player rect center and
    moving at speed 10 along the facing axis; with the quiver empty it
    posts a notification and spawns nothing, leaving ammunition and the
    world unchanged — but it still stamps the attack timestamp and sets
    the attacking flag (it is not a complete no-op). -/
theorem c6_ranged_attack (now : Int) (p : Player) (w : World)
    (hcd : now - p.last_attack_time > PLAYER_ATTACK_COOLDOWN)
    (heq : p.equipped_item = .bow) :
    (0 < p.arrows →
      (Player.attack now p w).1 =
        { p with last_attack_time := now, attacking := true,
                 arrows := p.arrows - 1 } ∧
      (Player.attack now p w).2 =
        { w with
            projectiles := w.projectiles ++
              [Projectile_init (p.rect.centerx, p.rect.centery) p.direction],
            messages := w.messages ++ ["Thwip!"] }) ∧
    (p.arrows = 0 →
      (Player.attack now p w).1 =
        { p with last_attack_time := now, attacking := true } ∧
      (Player.attack now p w).2 =
        { w with messages := w.messages ++ ["Out of arrows!"] }) ∧
    (Projectile_init (p.rect.centerx, p.rect.centery) p.direction).x + 5 =
      p.rect.centerx ∧
    (Projectile_init (p.rect.centerx, p.rect.centery) p.direction).y + 5 =
      p.rect.centery ∧
    ((p.direction = .up →
        (Projectile_init (p.rect.centerx, p.rect.centery) p.direction).vx = 0 ∧
        (Projectile_init (p.rect.centerx, p.rect.centery) p.direction).vy = -10) ∧
     (p.direction = .down →
        (Projectile_init (p.rect.centerx, p.rect.centery) p.direction).vx = 0 ∧
        (Projectile_init (p.rect.centerx, p.rect.centery) p.direction).vy = 10) ∧
     (p.direction = .left →
        (Projectile_init (p.rect.centerx, p.rect.centery) p.direction).vx = -10 ∧
        (Projectile_init (p.rect.centerx, p.rect.centery) p.direction).vy = 0) ∧
     (p.direction = .right →
        (Projectile_init (p.rect.centerx, p.rect.centery) p.direction).vx = 10 ∧
        (Projectile_init (p.rect.centerx, p.rect.centery) p.direction).vy = 0)) := by
  refine ⟨?_, ?_, by simp [Projectile_init], by simp [Projectile_init], ?_⟩
  · intro hk
    constructor <;>
      simp [Player.attack, hcd, heq, hk, Player.rect, Rect.centerx, Rect.centery]
  · intro hk
    have hk2 : ¬ ((0 : Int) < 0) := by omega
    constructor <;> simp [Player.attack, hcd, heq, hk, hk2]
  · refine ⟨?_, ?_, ?_, ?_⟩ <;> intro hd <;> simp [Projectile_init, hd]

/-- Witness for C6: bow equipped, 5 arrows, cooldown elapsed; the attack
    spends one arrow and appends the projectile. -/
theorem c6_ranged_attack_witness :
    (Player.attack 1000 { p0 with equipped_item := .bow } w0).1 =
      { p0 with equipped_item := .bow, last_attack_time := 1000,
                attacking := true, arrows := 4 } ∧
    (Player.attack 1000 { p0 with equipped_item := .bow } w0).2 =
      { w0 with
          projectiles := [Projectile_init (32, 32) Dir.down],
          messages := ["Thwip!"] } := by
  have h := (c6_ranged_attack 1000 { p0 with equipped_item := .bow } w0
    (by decide) (by decide)).1 (by decide)
  constructor
  · rw [h.1]
    decide
  · rw [h.2]
    decide

/-- C3 counterexample: the claim says every damaged entity ends with
    health clamped to 0 and never negative, but `Enemy.take_damage` does
    not clamp: 60 damage on a 50-health enemy stores health -10 (the
    enemy is removed, but its health field is negative). -/
theorem c3_counterexample :
    ¬ (∀ (h a : Int), 0 ≤ (Enemy.take_damage h a).1) := by
  intro hall
  exact absurd (hall 50 60) (by decide)

/-- C3 (amended): damage application is `health := health - amount`; the
    player version clamps at 0 (never negative) and signals death when
    the difference is `≤ 0`; the hostile version stores the raw
    difference — possibly negative — and instead removes the enemy from
    the live collection exactly when the difference is `≤ 0`, as the
    sword sweep shows: a hit enemy whose health would drop to 0 or below
    is absent from the resulting enemies list. -/
theorem c3_damage_application :
    (∀ (p : Player) (a : Int),
      0 ≤ (p.take_damage a).1.health ∧
      (p.take_damage a).1.health =
        (if p.health - a ≤ 0 then 0 else p.health - a) ∧
      ((p.take_damage a).2 = true ↔ p.health - a ≤ 0)) ∧
    (∀ (h a : Int),
      (Enemy.take_damage h a).1 = h - a ∧
      ((Enemy.take_damage h a).2 = true ↔ h - a ≤ 0)) ∧
    (∀ (atk : Rect) (dmg : Int) (es : List Enemy) (e : Enemy),
      e ∈ es → atk.colliderect e.hit_rect = true → e.health - dmg ≤ 0 →
      { e with health := e.health - dmg } ∉ swordDamagePass atk dmg es) := by
  refine ⟨?_, ?_, ?_⟩
  · intro p a
    by_cases hle : p.health - a ≤ 0
    · simp [Player.take_damage, hle]
    · simp [Player.take_damage, hle]
      omega
  · intro h a
    simp [Enemy.take_damage]
  · intro atk dmg es e hmem hcol hdead hbad
    rw [swordDamagePass, List.mem_filterMap] at hbad
    obtain ⟨a, _, hfa⟩ := hbad
    by_cases hc : atk.colliderect a.hit_rect = true
    · by_cases hk : a.health - dmg ≤ 0
      · simp [hc, hk] at hfa
      · simp [hc, hk] at hfa
        have hh : a.health - dmg = e.health - dmg := by
          rw [hfa.2.2.2.2]
        omega
    · simp [hc] at hfa
      apply hc
      rw [hfa]
      simpa [Enemy.hit_rect] using hcol

/-- Witness for C3: a 10-health enemy under the sword, 10 damage: the
    damaged record (health 0) is not in the surviving enemies list. -/
theorem c3_damage_application_witness :
    ({ x := 0, y := 0, vx := 0, vy := 0, health := (0 : Int) } : Enemy) ∉
      swordDamagePass ⟨0, 0, 64, 64⟩ 10
        [{ x := 0, y := 0, vx := 0, vy := 0, health := 10 }] := by
  have h := c3_damage_application.2.2 ⟨0, 0, 64, 64⟩ 10
    [{ x := 0, y := 0, vx := 0, vy := 0, health := 10 }]
    { x := 0, y := 0, vx := 0, vy := 0, health := 10 }
    (by decide) (by decide) (by decide)
  simpa using h

/-- C9 counterexample: the claim says the hostile chases whenever the
    distance is less than or equal to the aggro radius, but the source
    compares with strict `<`.  Enemy at the origin, player exactly 250
    pixels to the right (the radius), no dialogue: the enemy does not
    move, although applying the chase move would change its position. -/
theorem c9_counterexample :
    ¬ (∀ (e : Enemy) (p : Player) (vel : Int × Int) (obs : List Rect),
        Enemy.playerDistSq e p ≤ ENEMY_AGGRO_RADIUS ^ 2 →
        p.dialogue_active = false →
        (Enemy.update e p vel obs).1 = e.move_towards_player vel obs) := by
  intro h
  have h1 := h { x := 0, y := 0, vx := 0, vy := 0, health := 50 }
    { p0 with x := 250 } (2, 0) [] (by decide) (by decide)
  exact absurd h1 (by decide)

/-- C9 (amended): each frame the hostile applies the chase move — the
    speed-scaled unit vector toward the player, resolved along x then
    y — exactly when its center distance to the player is strictly below
    the aggro radius and no dialogue is active; otherwise its state is
    untouched. -/
theorem c9_aggro_gate (e : Enemy) (p : Player) (vel : Int × Int)
    (obs : List Rect) :
    (Enemy.playerDistSq e p < ENEMY_AGGRO_RADIUS ^ 2 →
      p.dialogue_active = false →
      (Enemy.update e p vel obs).1 = e.move_towards_player vel obs) ∧
    (ENEMY_AGGRO_RADIUS ^ 2 ≤ Enemy.playerDistSq e p ∨
      p.dialogue_active = true →
      (Enemy.update e p vel obs).1 = e) := by
  constructor
  · intro hd hdia
    simp [Enemy.update, hd, hdia]
  · intro hor
    rcases hor with hge | hdia
    · have hlt : ¬ (Enemy.playerDistSq e p < ENEMY_AGGRO_RADIUS ^ 2) := by
        omega
      simp [Enemy.update, hlt]
    · simp [Enemy.update, hdia]

/-- Witness for C9: enemy and player both at the origin (distance 0),
    no dialogue: the update applies the chase move. -/
theorem c9_aggro_gate_witness :
    (Enemy.update { x := 0, y := 0, vx := 0, vy := 0, health := 50 } p0
        (2, 0) []).1 =
      Enemy.move_towards_player
        { x := 0, y := 0, vx := 0, vy := 0, health := 50 } (2, 0) [] :=
  (c9_aggro_gate { x := 0, y := 0, vx := 0, vy := 0, health := 50 } p0
    (2, 0) []).1 (by decide) (by decide)

/-- C8: destroying a live pot emits exactly one pickup, chosen by the
    weighted draw over arrows / coin / health bottle whose weights sum
    to 1, posts its message, and removes exactly that pot from the live
    collection (so it can never be destroyed again: it is gone from the
    list the sword and projectile sweeps iterate). -/
theorem c8_pot_destruction (r : ℚ) (pots : List Rect) (i : Nat)
    (items : List (Loot × Int × Int)) (msgs : List String)
    (hi : i < pots.length) (hnd : pots.Nodup) :
    (Pot_destroy r pots i items msgs).1 = pots.eraseIdx i ∧
    (Pot_destroy r pots i items msgs).1.length + 1 = pots.length ∧
    pots.get ⟨i, hi⟩ ∉ (Pot_destroy r pots i items msgs).1 ∧
    (Pot_destroy r pots i items msgs).2.1 =
      items ++ [(chooseLoot r, (pots.get ⟨i, hi⟩).centerx,
                 (pots.get ⟨i, hi⟩).centery)] ∧
    (Pot_destroy r pots i items msgs).2.2 =
      msgs ++ [lootMessage (chooseLoot r)] ∧
    loot_weights.sum = 1 ∧
    chooseLoot r ∈ loot_options := by
  have hsome : pots[i]? = some (pots.get ⟨i, hi⟩) := by
    rw [List.getElem?_eq_getElem hi, List.get_eq_getElem]
  refine ⟨by simp [Pot_destroy, hsome], ?_, ?_, by simp [Pot_destroy, hsome],
    by simp [Pot_destroy, hsome], ?_, ?_⟩
  · have hlen := List.length_eraseIdx_add_one hi
    simp [Pot_destroy, hsome, hlen]
  · intro hmem
    simp only [Pot_destroy, hsome] at hmem
    rw [List.mem_eraseIdx_iff_getElem] at hmem
    obtain ⟨j, hj, hne, heq⟩ := hmem
    rw [List.get_eq_getElem] at heq
    exact hne ((hnd.getElem_inj_iff).mp heq)
  · rw [loot_weights]
    norm_num
  · rw [chooseLoot, loot_options]
    split
    · simp
    · split <;> simp

/-- Witness for C8, the spec scenario B: a single pot, seeded draw 0
    (first outcome): exactly one arrows pickup is emitted at the pot
    center and the pot list becomes empty. -/
theorem c8_pot_destruction_witness :
    (Pot_destroy 0 [⟨0, 0, 64, 64⟩] 0 [] []).1 = [] ∧
    (Pot_destroy 0 [⟨0, 0, 64, 64⟩] 0 [] []).2.1 =
      [(Loot.arrows, 32, 32)] ∧
    loot_weights.sum = 1 := by
  have h := c8_pot_destruction 0 [⟨0, 0, 64, 64⟩] 0 [] []
    (by decide) (by simp)
  have harrows : chooseLoot 0 = Loot.arrows := by
    rw [chooseLoot]
    norm_num
  refine ⟨by simpa using h.1, ?_, h.2.2.2.2.2.1⟩
  rw [h.2.2.2.1, harrows]
  simp [Rect.centerx, Rect.centery]

theorem damageFrame_step (g : GameS) (a : Int) (hInv : gsInv g)
    (ha : 0 ≤ a) :
    gsInv (damageFrame g a).1 ∧
    (if (damageFrame g a).2 then 1 else 0) +
        (if g.player.health = 0 then 1 else 0) =
      (if (damageFrame g a).1.player.health = 0 then 1 else 0) := by
  obtain ⟨h0, h100, hiff⟩ := hInv
  have h100n : g.player.health ≤ 100 := by simpa [PLAYER_HEALTH] using h100
  by_cases hle : g.player.health - a ≤ 0
  · cases hgo : g.game_over with
    | false =>
      have hne : ¬ g.player.health = 0 := by
        intro h
        exact absurd (hiff.mpr h) (by rw [hgo]; exact Bool.false_ne_true)
      simp [damageFrame, GameS.take_damage, Player.take_damage,
        GameS.death_check, gsInv, hle, hgo, hne, PLAYER_HEALTH]
    | true =>
      have hz : g.player.health = 0 := hiff.mp hgo
      simp [damageFrame, GameS.take_damage, Player.take_damage,
        GameS.death_check, gsInv, hle, hgo, hz, ha, PLAYER_HEALTH]
  · have hne2 : ¬ (g.player.health - a ≤ 0) := hle
    have hponew : ¬ (g.player.health - a = 0) := by omega
    have hgo : g.game_over = false := by
      cases hgo2 : g.game_over
      · rfl
      · exact absurd (hiff.mp hgo2) (by omega)
    have hne : ¬ g.player.health = 0 := by omega
    simp only [damageFrame, GameS.take_damage, Player.take_damage,
      GameS.death_check, gsInv, hne2, if_false, hgo, hne, hponew,
      PLAYER_HEALTH]
    simp [hne2, hgo, hponew]
    omega

theorem runFrames_inv (amounts : List Int) :
    ∀ (g : GameS), gsInv g → (∀ a ∈ amounts, 0 ≤ a) →
    gsInv (runFrames g amounts).1 ∧
    (runFrames g amounts).2 + (if g.player.health = 0 then 1 else 0) =
      (if (runFrames g amounts).1.player.health = 0 then 1 else 0) := by
  induction amounts with
  | nil =>
    intro g hInv _
    exact ⟨hInv, by simp [runFrames]⟩
  | cons a rest ih =>
    intro g hInv hall
    have ha : 0 ≤ a := hall a (by simp)
    have hrest : ∀ b ∈ rest, 0 ≤ b := fun b hb => hall b (by simp [hb])
    have hstep := damageFrame_step g a hInv ha
    have hih := ih (damageFrame g a).1 hstep.1 hrest
    refine ⟨by simpa [runFrames] using hih.1, ?_⟩
    have hcnt1 := hstep.2
    have hcnt2 := hih.2
    simp only [runFrames]
    omega

/-- C2: along any sequence of damage applications (with the per-frame
    death check of `Game.update`), starting from a live state, the
    player health stays within `[0, PLAYER_HEALTH]` at every prefix, and
    the game-over transition has fired exactly once as soon as — and
    only when — health has reached 0 (so it fires on the frame health
    first hits 0 and never again). -/
theorem c2_health_clamped_gameover_once (g0 : GameS)
    (amounts pre suf : List Int) (hsplit : amounts = pre ++ suf)
    (hpos : 0 < g0.player.health) (hmax : g0.player.health ≤ PLAYER_HEALTH)
    (hgo : g0.game_over = false) (hnn : ∀ a ∈ amounts, 0 ≤ a) :
    0 ≤ (runFrames g0 pre).1.player.health ∧
    (runFrames g0 pre).1.player.health ≤ PLAYER_HEALTH ∧
    (runFrames g0 pre).2 ≤ 1 ∧
    ((runFrames g0 pre).2 = 1 ↔ (runFrames g0 pre).1.player.health = 0) ∧
    ((runFrames g0 pre).1.game_over = true ↔
      (runFrames g0 pre).1.player.health = 0) := by
  have hinv0 : gsInv g0 := by
    refine ⟨by omega, hmax, ?_⟩
    rw [hgo]
    constructor
    · intro h
      exact absurd h Bool.false_ne_true
    · intro h
      omega
  have hpre : ∀ a ∈ pre, 0 ≤ a := fun a ha =>
    hnn a (by rw [hsplit]; exact List.mem_append_left _ ha)
  obtain ⟨⟨i0, i100, iiff⟩, hcnt⟩ := runFrames_inv pre g0 hinv0 hpre
  have hind0 : (if g0.player.health = 0 then 1 else 0) = (0 : Nat) := by
    have : ¬ g0.player.health = 0 := by omega
    simp [this]
  rw [hind0] at hcnt
  refine ⟨i0, i100, ?_, ?_, iiff⟩
  · by_cases hf : (runFrames g0 pre).1.player.health = 0 <;>
      simp [hf] at hcnt <;> omega
  · by_cases hf : (runFrames g0 pre).1.player.health = 0 <;>
      simp [hf] at hcnt ⊢ <;> omega

/-- Witness for C2, the spec scenario E: health 5, one frame of 10
    contact damage: health clamps to 0 and the game-over transition
    fires exactly once. -/
theorem c2_health_clamped_gameover_once_witness :
    0 ≤ (runFrames g0e [10]).1.player.health ∧
    (runFrames g0e [10]).1.player.health ≤ PLAYER_HEALTH ∧
    (runFrames g0e [10]).2 ≤ 1 ∧
    ((runFrames g0e [10]).2 = 1 ↔ (runFrames g0e [10]).1.player.health = 0) ∧
    ((runFrames g0e [10]).1.game_over = true ↔
      (runFrames g0e [10]).1.player.health = 0) :=
  c2_health_clamped_gameover_once g0e [10] [10] [] rfl (by decide)
    (by decide) rfl (by decide)

/-- C7: a melee attack input with the cooldown elapsed stamps the
    cooldown and the attacking flag (whether or not anything is hit),
    places the fixed-size hitbox flush against the facing side, damages
    every hostile whose hit rectangle intersects it by the player damage
    stat (surviving ones stay with reduced health, and ones it misses
    stay untouched), and destroys every intersecting container. -/
theorem c7_melee_attack (now : Int) (p : Player) (w : World)
    (hcd : now - p.last_attack_time > PLAYER_ATTACK_COOLDOWN)
    (heq : p.equipped_item = .sword) :
    (Player.attack now p w).1 =
      { p with last_attack_time := now, attacking := true } ∧
    (Player.attack now p w).2.enemies =
      swordDamagePass p.get_attack_rect p.damage w.enemies ∧
    (Player.attack now p w).2.pots = swordPotPass p.get_attack_rect w.pots ∧
    (Player.attack now p w).2.messages = w.messages ++ ["Swish!"] ∧
    (Player.attack now p w).2.projectiles = w.projectiles ∧
    attack_rect_flush p p.get_attack_rect ∧
    (∀ e ∈ w.enemies, p.get_attack_rect.colliderect e.hit_rect = true →
      p.damage < e.health →
      { e with health := e.health - p.damage } ∈
        (Player.attack now p w).2.enemies) ∧
    (∀ e ∈ w.enemies, p.get_attack_rect.colliderect e.hit_rect = false →
      e ∈ (Player.attack now p w).2.enemies) ∧
    (∀ q ∈ w.pots, p.get_attack_rect.colliderect q = true →
      q ∉ (Player.attack now p w).2.pots) := by
  have hrect :
      Player.get_attack_rect
          { p with equipped_item := Equip.sword, attacking := true,
                   last_attack_time := now } =
        p.get_attack_rect := by
    cases hd : p.direction <;> simp [Player.get_attack_rect, hd]
  have henemies : (Player.attack now p w).2.enemies =
      swordDamagePass p.get_attack_rect p.damage w.enemies := by
    simp [Player.attack, hcd, heq, hrect]
  have hpots : (Player.attack now p w).2.pots =
      swordPotPass p.get_attack_rect w.pots := by
    simp [Player.attack, hcd, heq, hrect]
  refine ⟨by simp [Player.attack, hcd, heq], henemies, hpots,
    by simp [Player.attack, hcd, heq], by simp [Player.attack, hcd, heq],
    ?_, ?_, ?_, ?_⟩
  · cases hd : p.direction <;>
      simp [attack_rect_flush, Player.get_attack_rect, Player.rect,
        Rect.bottom, Rect.right, Rect.centerx, Rect.centery, hd]
  · intro e he hc hlt
    rw [henemies, swordDamagePass, List.mem_filterMap]
    refine ⟨e, he, ?_⟩
    have hk : ¬ (e.health - p.damage ≤ 0) := by omega
    simp [hc, hk]
  · intro e he hc
    rw [henemies, swordDamagePass, List.mem_filterMap]
    exact ⟨e, he, by simp [hc]⟩
  · intro q hq hc hmem
    rw [hpots, swordPotPass, List.mem_filter] at hmem
    simp [hc] at hmem

/-- Witness for C7: facing down with the cooldown elapsed, the sword
    stamps the cooldown, leaves the hit hostile alive at 40 health, and
    destroys the pot under the hitbox. -/
theorem c7_melee_attack_witness :
    (Player.attack 1000 p0 wC7).1 =
      { p0 with last_attack_time := 1000, attacking := true } ∧
    ({ x := 0, y := 64, vx := 0, vy := 0, health := 40 } : Enemy) ∈
      (Player.attack 1000 p0 wC7).2.enemies ∧
    (⟨0, 64, 64, 64⟩ : Rect) ∉ (Player.attack 1000 p0 wC7).2.pots := by
  have h := c7_melee_attack 1000 p0 wC7 (by decide) rfl
  refine ⟨h.1, ?_, ?_⟩
  · have hm := h.2.2.2.2.2.2.1
      { x := 0, y := 64, vx := 0, vy := 0, health := 50 }
      (by simp [wC7]) (by decide) (by decide)
    simpa using hm
  · exact h.2.2.2.2.2.2.2.2 ⟨0, 64, 64, 64⟩ (by simp [wC7]) (by decide)

/-! ### Resolution lemmas for C1 -/

theorem snapX_fields (m : Mob) (o : Rect) :
    (snapX m o).y = m.y ∧ (snapX m o).vy = m.vy ∧ (snapX m o).vx = 0 := by
  by_cases h1 : 0 < m.vx <;> by_cases h2 : m.vx < 0 <;>
    simp [snapX, h1, h2]

theorem snapY_fields (m : Mob) (o : Rect) :
    (snapY m o).x = m.x ∧ (snapY m o).vx = m.vx ∧ (snapY m o).vy = 0 := by
  by_cases h1 : 0 < m.vy <;> by_cases h2 : m.vy < 0 <;>
    simp [snapY, h1, h2]

/-- A snap with nonzero velocity leaves the rect flush against the
    obstacle: the x intervals are disjoint. -/
theorem snapX_resolves (m : Mob) (o : Rect) (hv : m.vx ≠ 0) :
    (snapX m o).x + 64 ≤ o.x ∨ o.x + o.w ≤ (snapX m o).x := by
  rcases lt_or_gt_of_ne hv with hneg | hpos
  · have h1 : ¬ 0 < m.vx := by omega
    simp [snapX, h1, hneg]
  · have h2 : ¬ m.vx < 0 := by omega
    left
    simp [snapX, hpos, h2]

theorem snapY_resolves (m : Mob) (o : Rect) (hv : m.vy ≠ 0) :
    (snapY m o).y + 64 ≤ o.y ∨ o.y + o.h ≤ (snapY m o).y := by
  rcases lt_or_gt_of_ne hv with hneg | hpos
  · have h1 : ¬ 0 < m.vy := by omega
    simp [snapY, h1, hneg]
  · have h2 : ¬ m.vy < 0 := by omega
    left
    simp [snapY, hpos, h2]

theorem snapX_eq_of_vx_zero (m : Mob) (o : Rect) (h : m.vx = 0) :
    snapX m o = m := by
  cases m with
  | mk x y vx vy =>
    simp only at h
    subst h
    simp [snapX]

theorem snapY_eq_of_vy_zero (m : Mob) (o : Rect) (h : m.vy = 0) :
    snapY m o = m := by
  cases m with
  | mk x y vx vy =>
    simp only at h
    subst h
    simp [snapY]

/-- After the first snap zeroes the velocity, the rest of the enemy loop
    is inert. -/
theorem foldl_snapX_eq (t : List Rect) (m : Mob) (h : m.vx = 0) :
    t.foldl snapX m = m := by
  induction t generalizing m with
  | nil => rfl
  | cons o t ih =>
    rw [List.foldl_cons, snapX_eq_of_vx_zero m o h]
    exact ih m h

theorem foldl_snapY_eq (t : List Rect) (m : Mob) (h : m.vy = 0) :
    t.foldl snapY m = m := by
  induction t generalizing m with
  | nil => rfl
  | cons o t ih =>
    rw [List.foldl_cons, snapY_eq_of_vy_zero m o h]
    exact ih m h

theorem foldl_snapY_x (t : List Rect) (m : Mob) :
    (t.foldl snapY m).x = m.x := by
  induction t generalizing m with
  | nil => rfl
  | cons o t ih =>
    rw [List.foldl_cons, ih]
    exact (snapY_fields m o).1

theorem foldl_snapX_vy (t : List Rect) (m : Mob) :
    (t.foldl snapX m).vy = m.vy := by
  induction t generalizing m with
  | nil => rfl
  | cons o t ih =>
    rw [List.foldl_cons, ih]
    exact (snapX_fields m o).2.1

theorem playerCollideY_x (m : Mob) (obs : List Rect) :
    (playerCollideY m obs).x = m.x := by
  rw [playerCollideY]
  rcases h : hitsAgainst m obs with - | ⟨o, t⟩
  · rfl
  · exact (snapY_fields m o).1

theorem playerCollideX_vy (m : Mob) (obs : List Rect) :
    (playerCollideX m obs).vy = m.vy := by
  rw [playerCollideX]
  rcases h : hitsAgainst m obs with - | ⟨o, t⟩
  · rfl
  · exact (snapX_fields m o).2.1

theorem playerMoveX_vy (m : Mob) (obs : List Rect) :
    (playerMoveX m obs).vy = m.vy := by
  rw [playerMoveX]
  split
  · exact playerCollideX_vy _ obs
  · rfl

theorem enemyMoveX_vy (m : Mob) (obs : List Rect) :
    (enemyMoveX m obs).vy = m.vy := by
  rw [enemyMoveX, enemyCollideX]
  exact foldl_snapX_vy _ _

/-- An x-interval separation of the full rect rules out overlap for the
    centered hit rectangle as well, and so does a y separation. -/
theorem colliderect_false_of_sep (m : Mob) (o : Rect)
    (h : (m.x + 64 ≤ o.x ∨ o.x + o.w ≤ m.x) ∨
         (m.y + 64 ≤ o.y ∨ o.y + o.h ≤ m.y)) :
    m.rect.colliderect o = false ∧ m.hit_rect.colliderect o = false := by
  rw [colliderect_eq_false_iff, colliderect_eq_false_iff]
  simp only [Mob.rect, Mob.hit_rect]
  constructor <;> omega

/-- C1 counterexample: with two overlapping walls, resolving against the
    first-encountered hit can leave the mover inside the second wall.
    Player rect at x = 50 moving right 5 into walls at x = 100 and
    x = 60: the snap against the first wall puts the player at x = 36,
    whose hit rectangle still overlaps the second wall. -/
theorem c1_counterexample :
    ¬ (∀ (m : Mob) (obs : List Rect), ∀ o ∈ obs,
        (playerMove m obs).hit_rect.colliderect o = false) := by
  intro h
  have h1 := h ⟨50, 0, 5, 0⟩ [⟨100, 0, 64, 64⟩, ⟨60, 0, 64, 64⟩]
    ⟨60, 0, 64, 64⟩ (by simp)
  exact absurd h1 (by decide)

/-- C1 (amended): after the axis-separated resolution of one frame of
    movement, the mover (player, and hostile with its extended obstacle
    set) does not intersect the FIRST obstacle, in iteration order, that
    overlapped it on each axis pass with nonzero velocity on that axis —
    overlap with later obstacles in the hit list may survive, as the
    counterexample shows.  Both the full rect and the hit rectangle are
    clear of that obstacle. -/
theorem c1_first_hit_resolution (m : Mob) (obs : List Rect) :
    (∀ o t, m.vx ≠ 0 →
      hitsAgainst { m with x := m.x + m.vx } obs = o :: t →
      (playerMove m obs).rect.colliderect o = false ∧
      (playerMove m obs).hit_rect.colliderect o = false) ∧
    (∀ o t, m.vy ≠ 0 →
      hitsAgainst { playerMoveX m obs with
        y := (playerMoveX m obs).y + m.vy } obs = o :: t →
      (playerMove m obs).rect.colliderect o = false ∧
      (playerMove m obs).hit_rect.colliderect o = false) ∧
    (∀ o t, m.vx ≠ 0 →
      hitsAgainst { m with x := m.x + m.vx } obs = o :: t →
      (enemyMove m obs).rect.colliderect o = false ∧
      (enemyMove m obs).hit_rect.colliderect o = false) ∧
    (∀ o t, m.vy ≠ 0 →
      hitsAgainst { enemyMoveX m obs with
        y := (enemyMoveX m obs).y + (enemyMoveX m obs).vy } obs = o :: t →
      (enemyMove m obs).rect.colliderect o = false ∧
      (enemyMove m obs).hit_rect.colliderect o = false) := by
  refine ⟨?_, ?_, ?_, ?_⟩
  · intro o t hvx hhits
    have hm1 : playerMoveX m obs = snapX { m with x := m.x + m.vx } o := by
      rw [playerMoveX, if_pos hvx, playerCollideX, hhits]
    have hres := snapX_resolves { m with x := m.x + m.vx } o
      (by simpa using hvx)
    rw [← hm1] at hres
    have hxfinal : (playerMove m obs).x = (playerMoveX m obs).x := by
      simp only [playerMove]
      split
      · exact playerCollideY_x _ obs
      · rfl
    refine colliderect_false_of_sep _ o (Or.inl ?_)
    rw [hxfinal]
    exact hres
  · intro o t hvy hhits
    have hvy2 : (playerMoveX m obs).vy ≠ 0 := by
      rw [playerMoveX_vy]
      exact hvy
    have hfin : playerMove m obs =
        snapY { playerMoveX m obs with
          y := (playerMoveX m obs).y + m.vy } o := by
      simp only [playerMove]
      rw [if_pos hvy, playerCollideY, hhits]
    have hres := snapY_resolves
      { playerMoveX m obs with y := (playerMoveX m obs).y + m.vy } o hvy2
    rw [← hfin] at hres
    exact colliderect_false_of_sep _ o (Or.inr hres)
  · intro o t hvx hhits
    have hm1 : enemyMoveX m obs = snapX { m with x := m.x + m.vx } o := by
      rw [enemyMoveX, enemyCollideX, hhits, List.foldl_cons]
      exact foldl_snapX_eq t _ (snapX_fields _ o).2.2
    have hres := snapX_resolves { m with x := m.x + m.vx } o
      (by simpa using hvx)
    rw [← hm1] at hres
    have hxfinal : (enemyMove m obs).x = (enemyMoveX m obs).x := by
      simp only [enemyMove, enemyCollideY]
      exact foldl_snapY_x _ _
    refine colliderect_false_of_sep _ o (Or.inl ?_)
    rw [hxfinal]
    exact hres
  · intro o t hvy hhits
    have hvy1 : (enemyMoveX m obs).vy ≠ 0 := by
      rw [enemyMoveX_vy]
      exact hvy
    have hfin : enemyMove m obs =
        snapY { enemyMoveX m obs with
          y := (enemyMoveX m obs).y + (enemyMoveX m obs).vy } o := by
      simp only [enemyMove, enemyCollideY]
      rw [hhits, List.foldl_cons]
      exact foldl_snapY_eq t _ (snapY_fields _ o).2.2
    have hres := snapY_resolves
      { enemyMoveX m obs with
        y := (enemyMoveX m obs).y + (enemyMoveX m obs).vy } o hvy1
    rw [← hfin] at hres
    exact colliderect_false_of_sep _ o (Or.inr hres)

/-- Witness for C1: a player moving right 5 into a single wall at x = 60
    is snapped flush and ends clear of it, hit rectangle included. -/
theorem c1_first_hit_resolution_witness :
    (playerMove ⟨0, 0, 5, 0⟩ [⟨60, 0, 64, 64⟩]).rect.colliderect
        ⟨60, 0, 64, 64⟩ = false ∧
    (playerMove ⟨0, 0, 5, 0⟩ [⟨60, 0, 64, 64⟩]).hit_rect.colliderect
        ⟨60, 0, 64, 64⟩ = false :=
  (c1_first_hit_resolution ⟨0, 0, 5, 0⟩ [⟨60, 0, 64, 64⟩]).1
    ⟨60, 0, 64, 64⟩ [] (by decide) (by decide)
